import Mathlib

/-!
Shallow embedding of rocMLIR's WMMA instruction-group selection
(`mlir/lib/Dialect/Rock/IR/WmmaInsnGroup.cpp`) and of the Rock tuning C API
(`mlir/lib/CAPI/Dialect/Rock.cpp`), with theorems settling the specification's
claims about them.

Machine integers (`int64_t`) are modelled as `Int`; the C++ `%` and `/` on
`int64_t` truncate toward zero, so they are embedded as `Int.tmod` and
`Int.tdiv`.  `FailureOr` becomes `Option` with `none` for `failure()`.
C buffers are modelled as lists: the list holds the bytes of the writable
region, and a write never changes the list's length.
-/

namespace RocMLIR

/-- Element types of the MLIR type system relevant to WMMA selection:
the floating-point types and the integer types (by bit width). -/
inductive MLIRType where
  | f16
  | bf16
  | f32
  | f64
  | int (width : Nat)
deriving DecidableEq, Repr

/-- Embeds `Type::isF16()`. -/
def MLIRType.isF16 : MLIRType → Bool
  | .f16 => true
  | _ => false

/-- Embeds `Type::isBF16()`. -/
def MLIRType.isBF16 : MLIRType → Bool
  | .bf16 => true
  | _ => false

/-- Embeds `Type::isInteger(width)`: an integer type of exactly that width. -/
def MLIRType.isInteger (t : MLIRType) (width : Nat) : Bool :=
  match t with
  | .int w => w == width
  | _ => false

/-- An MLIR `VectorType`: a shape and an element type. -/
structure VectorType where
  shape : List Int
  elementType : MLIRType
deriving DecidableEq, Repr

/-- Embeds `VectorType::get(shape, elementType)`. -/
def VectorType.get (shape : List Int) (elementType : MLIRType) : VectorType :=
  ⟨shape, elementType⟩

/-- Embeds `getRetType` of `WmmaInsnGroup.cpp`: the accumulator element type is
`i32` for 8-bit-integer inputs and `f32` otherwise. -/
def getRetType (inputType : MLIRType) : MLIRType :=
  if inputType.isInteger 8 then .int 32 else .f32

/-- The `WmmaInsn` descriptor of `WmmaInsnGroup.h`, in field order of the
aggregate initializer at the end of `WmmaInsn::select`. -/
structure WmmaInsn where
  insn : String
  inputLen : Int
  outLen : Int
  outStride : Int
  mRepeats : Int
  nRepeats : Int
  argTypeA : VectorType
  argTypeB : VectorType
  retType : VectorType
deriving DecidableEq, Repr

/-- Embeds `WmmaInsn::isCoherentWithK`: false when `kPerBlock * kpack` is
below the instruction's `inputLen`, true otherwise. -/
def WmmaInsn.isCoherentWithK (self : WmmaInsn) (kpack kPerBlock : Int) : Bool :=
  if kPerBlock * kpack < self.inputLen then false else true

/-- Embeds `WmmaInsn::select`: reject mismatched element types and wave sizes
other than 32; fix the 16/8/2 hardware geometry; reject per-wave tiles that are
not multiples of `inputLen`; compute the repeat factors; then pick the ROCDL
instruction by element type. -/
def WmmaInsn.select (elementTypeA elementTypeB : MLIRType) (waveSize mPerWave nPerWave : Int) :
    Option WmmaInsn :=
  if elementTypeA ≠ elementTypeB then none
  else if waveSize ≠ 32 then none
  else
    let inputLen : Int := 16
    let outLen : Int := 8
    let outStride : Int := 2
    if mPerWave.tmod inputLen ≠ 0 then none
    else if nPerWave.tmod inputLen ≠ 0 then none
    else
      let mRepeats : Int := mPerWave.tdiv inputLen
      let nRepeats : Int := nPerWave.tdiv inputLen
      let argTypeA := VectorType.get [inputLen] elementTypeA
      let argTypeB := VectorType.get [inputLen] elementTypeB
      let retType := VectorType.get [outLen] (getRetType elementTypeA)
      if elementTypeA.isF16 then
        some ⟨"rocdl.wmma.f32.16x16x16.f16", inputLen, outLen, outStride,
              mRepeats, nRepeats, argTypeA, argTypeB, retType⟩
      else if elementTypeA.isBF16 then
        some ⟨"rocdl.wmma.f32.16x16x16.bf16", inputLen, outLen, outStride,
              mRepeats, nRepeats, argTypeA, argTypeB, retType⟩
      else if elementTypeA.isInteger 8 then
        some ⟨"rocdl.wmma.i32.16x16x16.iu8", inputLen, outLen, outStride,
              mRepeats, nRepeats, argTypeA, argTypeB, retType⟩
      else none

/-! ## The Rock tuning C API (`mlir/lib/CAPI/Dialect/Rock.cpp`) -/

/-- The C API tuning-effort levels. -/
inductive TuningParamSetKind where
  | Quick
  | Full
  | Exhaustive
deriving DecidableEq, Repr

/-- The C API split-K likelihood categories, ordered. -/
inductive SplitKSelectionLikelihood where
  | never
  | maybe
  | always
deriving DecidableEq, Repr

/-- Embeds `mlirIsSplitKFaster`: at `Quick` tuning level the answer is `never`
without consulting the heuristic; otherwise it defers to
`rock::isSplitKFaster`, which lives outside this file's sources and is
therefore passed in as the function argument `rockIsSplitKFaster`. -/
def mlirIsSplitKFaster
    (rockIsSplitKFaster : Int → Int → Int → Int → Int → SplitKSelectionLikelihood)
    (gDim mDim nDim kDim numCUs : Int)
    (tuningLevel : TuningParamSetKind) : SplitKSelectionLikelihood :=
  if tuningLevel = .Quick then .never
  else rockIsSplitKFaster gDim mDim nDim kDim numCUs

/-- The C `NUL` byte used by `strncpy` for padding. -/
def nullChar : Char := Char.ofNat 0

/-- Write `src.getD i d0` into positions `i < n` of `dest`, starting the index
count at `i0`; positions at `n` or beyond keep their old contents, and the
length of `dest` never changes.  This is the common shape of the C loops and
of `strncpy` writing into a caller-provided region. -/
def writeRange {β : Type} (d0 : β) (dest src : List β) (n i0 : Nat) : List β :=
  match dest with
  | [] => []
  | c :: rest => (if i0 < n then src.getD i0 d0 else c) :: writeRange d0 rest src n (i0 + 1)

/-- Embeds `strncpy(dest, src, n)` on a region modelled by the list `dest`:
bytes of `src` are copied to positions below `n`, with `NUL` padding once
`src` is exhausted; positions at `n` or beyond are untouched. -/
def strncpyList (dest src : List Char) (n : Nat) : List Char :=
  writeRange nullChar dest src n 0

/-- The value of `(size_t)(-1)` on a 64-bit host. -/
def sizeTMax : Nat := 2 ^ 64 - 1

/-- Embeds `mlirRockTuningParamToString`: the perf-config string produced by
`getPerfConfigStr` (outside these sources) is the `perfConfig` argument; the
call copies it into the buffer with `strncpy(buf, ..., bufLen)` and returns
the string's full size.  The result pairs the returned size with the buffer
contents after the call. -/
def mlirRockTuningParamToString (perfConfig : List Char) (buf : List Char)
    (bufLen : Nat) : Nat × List Char :=
  (perfConfig.length, strncpyList buf perfConfig bufLen)

/-- Embeds `mlirRockTuningGetKey`: `getTuningProblemStr` (outside these
sources) either fails — then the call returns `(size_t)(-1)` and leaves the
buffer alone — or produces the key string, which is copied with
`strncpy(buf, ..., bufLen)` while the string's full size is returned. -/
def mlirRockTuningGetKey (problemStr : Option (List Char)) (buf : List Char)
    (bufLen : Nat) : Nat × List Char :=
  match problemStr with
  | none => (sizeTMax, buf)
  | some s => (s.length, strncpyList buf s bufLen)

/-- One stored prefill attribute: the argument index and the initial value
(the `MlirAttribute` payload is modelled by an integer initial value). -/
structure PrefillAttr where
  argIndex : Nat
  initValue : Int
deriving DecidableEq, Repr

/-- An `LLVM::LLVMFuncOp` carrying its stored prefill attributes, the data
`rock::getStoredPrefillAttributes` (outside these sources) reads back. -/
structure LLVMFuncOp where
  prefillAttrs : List PrefillAttr
deriving DecidableEq, Repr

/-- A module as seen by the prefill queries: the LLVM functions it contains,
in walk order. -/
structure RockModule where
  llvmFuncs : List LLVMFuncOp
deriving DecidableEq, Repr

/-- Embeds the `mod.walk([&](LLVM::LLVMFuncOp op) { func = op; })` pattern:
each visited function overwrites `func`, so the last one in walk order is
kept, and `none` results when the module has no LLVM function. -/
def RockModule.walkLastFunc (m : RockModule) : Option LLVMFuncOp :=
  m.llvmFuncs.foldl (fun _ op => some op) none

/-- Embeds `rock::getStoredPrefillAttributes` reading the attributes stored
on the function. -/
def getStoredPrefillAttributes (f : LLVMFuncOp) : List PrefillAttr :=
  f.prefillAttrs

/-- Embeds `mlirGetNumPrefillArgs`: 0 when the module has no LLVM function,
otherwise the number of stored prefill attributes of the (last) function. -/
def mlirGetNumPrefillArgs (m : RockModule) : Nat :=
  match m.walkLastFunc with
  | none => 0
  | some f => (getStoredPrefillAttributes f).length

/-- Embeds `mlirGetPrefillArgsInfo`: when the module has no LLVM function the
caller's arrays are returned untouched; otherwise positions `i < length` of
the index array receive `attrs[i].getArgIndex()` and of the value array
`attrs[i].getInitValue()`.  The result pairs the two arrays after the call. -/
def mlirGetPrefillArgsInfo (m : RockModule) (indices : List Nat)
    (initValues : List Int) (length : Nat) : List Nat × List Int :=
  match m.walkLastFunc with
  | none => (indices, initValues)
  | some f =>
    let attrs := getStoredPrefillAttributes f
    (writeRange 0 indices (attrs.map (·.argIndex)) length 0,
     writeRange 0 initValues (attrs.map (·.initValue)) length 0)

/-! ## Helper lemmas -/

lemma isF16_iff (t : MLIRType) : t.isF16 = true ↔ t = .f16 := by
  cases t <;> simp [MLIRType.isF16]

lemma isBF16_iff (t : MLIRType) : t.isBF16 = true ↔ t = .bf16 := by
  cases t <;> simp [MLIRType.isBF16]

lemma isInteger_iff (t : MLIRType) (w : Nat) : t.isInteger w = true ↔ t = .int w := by
  cases t <;> simp [MLIRType.isInteger]

lemma select_f16_f16 (m n : Int) :
    WmmaInsn.select .f16 .f16 32 m n =
      if m.tmod 16 = 0 ∧ n.tmod 16 = 0 then
        some ⟨"rocdl.wmma.f32.16x16x16.f16", 16, 8, 2, m.tdiv 16, n.tdiv 16,
              ⟨[16], .f16⟩, ⟨[16], .f16⟩, ⟨[8], .f32⟩⟩
      else none := by
  by_cases hm : m.tmod 16 = 0 <;> by_cases hn : n.tmod 16 = 0 <;>
    simp [WmmaInsn.select, hm, hn, VectorType.get, getRetType,
          MLIRType.isF16, MLIRType.isInteger]

lemma tdiv_eq_ediv_of_dvd16 {m : Int} (hm : 16 ∣ m) : m.tdiv 16 = m / 16 := by
  obtain ⟨c, rfl⟩ := hm
  rw [Int.mul_tdiv_cancel_left c (by norm_num),
      Int.mul_ediv_cancel_left c (by norm_num)]

/-! ## Claim theorems -/

/-- C1: for f16 operands at waveSize 32, `select` fails exactly when the
per-wave tile is not a multiple of the 16-wide base instruction tile, and on
success the repeat factors are `tileM / 16` and `tileN / 16`; in particular
`select(f16, f16, 32, 24, 16)` is Unsupported and `select(f16, f16, 32, 32,
16)` succeeds with `mRepeats = 2`, `nRepeats = 1`. -/
theorem select_f16_tile_multiple_rule (m n : Int) :
    (¬(16 ∣ m) ∨ ¬(16 ∣ n) → WmmaInsn.select .f16 .f16 32 m n = none) ∧
    (16 ∣ m → 16 ∣ n → ∃ d, WmmaInsn.select .f16 .f16 32 m n = some d ∧
      d.mRepeats = m / 16 ∧ d.nRepeats = n / 16) ∧
    WmmaInsn.select .f16 .f16 32 24 16 = none ∧
    (∃ d, WmmaInsn.select .f16 .f16 32 32 16 = some d ∧
      d.mRepeats = 2 ∧ d.nRepeats = 1) := by
  refine ⟨?_, ?_, by decide, ?_⟩
  · intro h
    rw [select_f16_f16, if_neg]
    intro ⟨h1, h2⟩
    rcases h with h | h
    · exact h (Int.dvd_of_tmod_eq_zero h1)
    · exact h (Int.dvd_of_tmod_eq_zero h2)
  · intro hm hn
    rw [select_f16_f16,
        if_pos ⟨Int.tmod_eq_zero_of_dvd hm, Int.tmod_eq_zero_of_dvd hn⟩]
    exact ⟨_, rfl, tdiv_eq_ediv_of_dvd16 hm, tdiv_eq_ediv_of_dvd16 hn⟩
  · exact ⟨⟨"rocdl.wmma.f32.16x16x16.f16", 16, 8, 2, 2, 1,
            ⟨[16], .f16⟩, ⟨[16], .f16⟩, ⟨[8], .f32⟩⟩, by decide, rfl, rfl⟩

/-- Witness for C1: concrete instances discharging the hypotheses, with 40
not a multiple of 16 and 48 a multiple of 16. -/
theorem select_f16_tile_multiple_rule_witness :
    WmmaInsn.select .f16 .f16 32 40 16 = none ∧
    (∃ d, WmmaInsn.select .f16 .f16 32 48 16 = some d ∧
      d.mRepeats = 48 / 16 ∧ d.nRepeats = 16 / 16) :=
  ⟨(select_f16_tile_multiple_rule 40 16).1 (Or.inl (by decide)),
   (select_f16_tile_multiple_rule 48 16).2.1 (by decide) (by decide)⟩

/-- C2: `select` is Unsupported whenever the operand element types differ or
the wave size is not 32; in particular `select(f16, bf16, 32, 64, 64)` is
Unsupported. -/
theorem select_rejects_mismatch_or_wavesize :
    (∀ (a b : MLIRType) (ws m n : Int), a ≠ b ∨ ws ≠ 32 →
      WmmaInsn.select a b ws m n = none) ∧
    WmmaInsn.select .f16 .bf16 32 64 64 = none := by
  refine ⟨fun a b ws m n h => ?_, by decide⟩
  rcases h with h | h <;> simp [WmmaInsn.select, h]

/-- Witness for C2: the mismatched-type instance. -/
theorem select_rejects_mismatch_or_wavesize_witness :
    WmmaInsn.select .f16 .bf16 32 64 64 = none :=
  select_rejects_mismatch_or_wavesize.1 .f16 .bf16 32 64 64 (Or.inl (by decide))

/-- C3: a successful `select` chooses the instruction solely by the (equal)
operand element type — the f16 path, the bf16 path, or the 8-bit-integer
path, the latter with an `i32` result element type and the other two with
`f32` — and any other operand element type is Unsupported. -/
theorem select_insn_by_element_type :
    (∀ (a b : MLIRType) (ws m n : Int) (d : WmmaInsn),
      WmmaInsn.select a b ws m n = some d →
      (a = .f16 ∧ d.insn = "rocdl.wmma.f32.16x16x16.f16" ∧
        d.retType.elementType = .f32) ∨
      (a = .bf16 ∧ d.insn = "rocdl.wmma.f32.16x16x16.bf16" ∧
        d.retType.elementType = .f32) ∨
      (a = .int 8 ∧ d.insn = "rocdl.wmma.i32.16x16x16.iu8" ∧
        d.retType.elementType = .int 32)) ∧
    (∀ (a b : MLIRType) (ws m n : Int), a ≠ .f16 → a ≠ .bf16 → a ≠ .int 8 →
      WmmaInsn.select a b ws m n = none) := by
  constructor
  · intro a b ws m n d h
    simp only [WmmaInsn.select] at h
    split_ifs at h with h1 h2 h3 h4 h5 h6 h7 <;>
      first
        | exact Option.noConfusion h
        | (rw [Option.some_inj] at h; subst h;
           simp_all [isF16_iff, isBF16_iff, isInteger_iff, VectorType.get,
                     getRetType])
  · intro a b ws m n h1 h2 h3
    simp only [WmmaInsn.select]
    split_ifs with g1 g2 g3 g4 g5 g6 g7 <;>
      simp_all [isF16_iff, isBF16_iff, isInteger_iff]

/-- Witness for C3: the bf16 instance for the success branch and f32 for the
rejection branch. -/
theorem select_insn_by_element_type_witness :
    (let d : WmmaInsn := ⟨"rocdl.wmma.f32.16x16x16.bf16", 16, 8, 2, 1, 1,
        ⟨[16], .bf16⟩, ⟨[16], .bf16⟩, ⟨[8], .f32⟩⟩
     (MLIRType.bf16 = .f16 ∧ d.insn = "rocdl.wmma.f32.16x16x16.f16" ∧
        d.retType.elementType = .f32) ∨
     (MLIRType.bf16 = .bf16 ∧ d.insn = "rocdl.wmma.f32.16x16x16.bf16" ∧
        d.retType.elementType = .f32) ∨
     (MLIRType.bf16 = .int 8 ∧ d.insn = "rocdl.wmma.i32.16x16x16.iu8" ∧
        d.retType.elementType = .int 32)) ∧
    WmmaInsn.select .f32 .f32 32 16 16 = none :=
  ⟨select_insn_by_element_type.1 .bf16 .bf16 32 16 16
     ⟨"rocdl.wmma.f32.16x16x16.bf16", 16, 8, 2, 1, 1,
      ⟨[16], .bf16⟩, ⟨[16], .bf16⟩, ⟨[8], .f32⟩⟩ (by decide),
   select_insn_by_element_type.2 .f32 .f32 32 16 16
     (by decide) (by decide) (by decide)⟩

/-- C4: `isCoherentWithK` is true exactly when `kPerBlock * kpack` reaches
the descriptor's `inputLen`; with `inputLen = 16` it is true at
`kpack * kPerBlock = 16`, false at `15`, and false at `kpack = 2,
kPerBlock = 4`. -/
theorem isCoherentWithK_iff_ge_inputLen (d : WmmaInsn) (kpack kPerBlock : Int) :
    (d.isCoherentWithK kpack kPerBlock = true ↔
      d.inputLen ≤ kPerBlock * kpack) ∧
    (d.inputLen = 16 →
      (kpack * kPerBlock = 16 → d.isCoherentWithK kpack kPerBlock = true) ∧
      (kpack * kPerBlock = 15 → d.isCoherentWithK kpack kPerBlock = false) ∧
      (kpack = 2 → kPerBlock = 4 →
        d.isCoherentWithK kpack kPerBlock = false)) := by
  have hiff : d.isCoherentWithK kpack kPerBlock = true ↔
      d.inputLen ≤ kPerBlock * kpack := by
    unfold WmmaInsn.isCoherentWithK
    split_ifs with h
    · simp [Int.not_le.mpr h]
    · simp [Int.not_lt.mp h]
  refine ⟨hiff, fun hlen => ⟨fun h16 => ?_, fun h15 => ?_, fun hk hkb => ?_⟩⟩
  · exact hiff.mpr (by rw [hlen, Int.mul_comm kPerBlock kpack, h16])
  · rw [Bool.eq_false_iff, Ne, hiff, hlen, Int.mul_comm kPerBlock kpack, h15]
    omega
  · subst hk hkb
    rw [Bool.eq_false_iff, Ne, hiff, hlen]
    omega

/-- Witness for C4: a descriptor with `inputLen = 16`, checked at both sides
of the boundary and at `kpack = 2, kPerBlock = 4`. -/
theorem isCoherentWithK_iff_ge_inputLen_witness :
    (WmmaInsn.isCoherentWithK ⟨"rocdl.wmma.f32.16x16x16.f16", 16, 8, 2, 1, 1,
        ⟨[16], .f16⟩, ⟨[16], .f16⟩, ⟨[8], .f32⟩⟩ 2 8 = true) ∧
    (WmmaInsn.isCoherentWithK ⟨"rocdl.wmma.f32.16x16x16.f16", 16, 8, 2, 1, 1,
        ⟨[16], .f16⟩, ⟨[16], .f16⟩, ⟨[8], .f32⟩⟩ 3 5 = false) ∧
    (WmmaInsn.isCoherentWithK ⟨"rocdl.wmma.f32.16x16x16.f16", 16, 8, 2, 1, 1,
        ⟨[16], .f16⟩, ⟨[16], .f16⟩, ⟨[8], .f32⟩⟩ 2 4 = false) :=
  ⟨((isCoherentWithK_iff_ge_inputLen _ 2 8).2 rfl).1 (by decide),
   ((isCoherentWithK_iff_ge_inputLen _ 3 5).2 rfl).2.1 (by decide),
   ((isCoherentWithK_iff_ge_inputLen _ 2 4).2 rfl).2.2 rfl rfl⟩

/-- C8: `select` does not require positive per-wave tiles — for any matching
supported element type (f16, bf16, or i8) at waveSize 32, any multiples of
16, zero or negative included, are accepted, and the repeat factors are the
corresponding quotients `tileM / 16`, `tileN / 16`. -/
theorem select_accepts_nonpositive_tile_multiples (a : MLIRType)
    (ha : a = .f16 ∨ a = .bf16 ∨ a = .int 8) (m n : Int)
    (hm : 16 ∣ m) (hn : 16 ∣ n) :
    ∃ d, WmmaInsn.select a a 32 m n = some d ∧
      d.mRepeats = m / 16 ∧ d.nRepeats = n / 16 := by
  have hm0 : m.tmod 16 = 0 := Int.tmod_eq_zero_of_dvd hm
  have hn0 : n.tmod 16 = 0 := Int.tmod_eq_zero_of_dvd hn
  rcases ha with rfl | rfl | rfl
  · exact ⟨⟨"rocdl.wmma.f32.16x16x16.f16", 16, 8, 2, m.tdiv 16, n.tdiv 16,
      ⟨[16], .f16⟩, ⟨[16], .f16⟩, ⟨[8], .f32⟩⟩,
      by simp [WmmaInsn.select, hm0, hn0, MLIRType.isF16, VectorType.get,
               getRetType, MLIRType.isInteger],
      tdiv_eq_ediv_of_dvd16 hm, tdiv_eq_ediv_of_dvd16 hn⟩
  · exact ⟨⟨"rocdl.wmma.f32.16x16x16.bf16", 16, 8, 2, m.tdiv 16, n.tdiv 16,
      ⟨[16], .bf16⟩, ⟨[16], .bf16⟩, ⟨[8], .f32⟩⟩,
      by simp [WmmaInsn.select, hm0, hn0, MLIRType.isF16, MLIRType.isBF16,
               VectorType.get, getRetType, MLIRType.isInteger],
      tdiv_eq_ediv_of_dvd16 hm, tdiv_eq_ediv_of_dvd16 hn⟩
  · exact ⟨⟨"rocdl.wmma.i32.16x16x16.iu8", 16, 8, 2, m.tdiv 16, n.tdiv 16,
      ⟨[16], .int 8⟩, ⟨[16], .int 8⟩, ⟨[8], .int 32⟩⟩,
      by simp [WmmaInsn.select, hm0, hn0, MLIRType.isF16, MLIRType.isBF16,
               VectorType.get, getRetType, MLIRType.isInteger],
      tdiv_eq_ediv_of_dvd16 hm, tdiv_eq_ediv_of_dvd16 hn⟩

/-- Witness for C8: the zero tile `select(f16, f16, 32, 0, 16)` succeeds with
`mRepeats = 0`, and the negative tile `-32` succeeds for bf16 and i8 operands
with `mRepeats = -2`. -/
theorem select_accepts_nonpositive_tile_multiples_witness :
    (∃ d, WmmaInsn.select .f16 .f16 32 0 16 = some d ∧
      d.mRepeats = 0 / 16 ∧ d.nRepeats = 16 / 16) ∧
    (∃ d, WmmaInsn.select .bf16 .bf16 32 (-32) 16 = some d ∧
      d.mRepeats = -32 / 16 ∧ d.nRepeats = 16 / 16) ∧
    (∃ d, WmmaInsn.select (.int 8) (.int 8) 32 (-32) 16 = some d ∧
      d.mRepeats = -32 / 16 ∧ d.nRepeats = 16 / 16) :=
  ⟨select_accepts_nonpositive_tile_multiples .f16 (Or.inl rfl) 0 16
      (by decide) (by decide),
   select_accepts_nonpositive_tile_multiples .bf16 (Or.inr (Or.inl rfl))
      (-32) 16 (by decide) (by decide),
   select_accepts_nonpositive_tile_multiples (.int 8) (Or.inr (Or.inr rfl))
      (-32) 16 (by decide) (by decide)⟩

/-- C9: every descriptor returned by a successful `select` has the fixed
hardware geometry `inputLen = 16`, `outLen = 8`, `outStride = 2`, operand
vector types of shape `[16]` over the operand element types, and a result
vector type of shape `[8]` over the accumulator type. -/
theorem select_fixed_geometry (a b : MLIRType) (ws m n : Int) (d : WmmaInsn)
    (h : WmmaInsn.select a b ws m n = some d) :
    d.inputLen = 16 ∧ d.outLen = 8 ∧ d.outStride = 2 ∧
    d.argTypeA = ⟨[16], a⟩ ∧ d.argTypeB = ⟨[16], b⟩ ∧
    d.retType = ⟨[8], getRetType a⟩ := by
  simp only [WmmaInsn.select] at h
  split_ifs at h <;>
    first
      | exact Option.noConfusion h
      | (rw [Option.some_inj] at h; subst h; simp [VectorType.get])

/-- Witness for C9: the concrete success `select(f16, f16, 32, 16, 16)`. -/
theorem select_fixed_geometry_witness :
    (WmmaInsn.inputLen ⟨"rocdl.wmma.f32.16x16x16.f16", 16, 8, 2, 1, 1,
        ⟨[16], .f16⟩, ⟨[16], .f16⟩, ⟨[8], .f32⟩⟩ = 16) ∧
    (WmmaInsn.outLen ⟨"rocdl.wmma.f32.16x16x16.f16", 16, 8, 2, 1, 1,
        ⟨[16], .f16⟩, ⟨[16], .f16⟩, ⟨[8], .f32⟩⟩ = 8) ∧
    (WmmaInsn.outStride ⟨"rocdl.wmma.f32.16x16x16.f16", 16, 8, 2, 1, 1,
        ⟨[16], .f16⟩, ⟨[16], .f16⟩, ⟨[8], .f32⟩⟩ = 2) ∧
    (WmmaInsn.argTypeA ⟨"rocdl.wmma.f32.16x16x16.f16", 16, 8, 2, 1, 1,
        ⟨[16], .f16⟩, ⟨[16], .f16⟩, ⟨[8], .f32⟩⟩ = ⟨[16], .f16⟩) ∧
    (WmmaInsn.argTypeB ⟨"rocdl.wmma.f32.16x16x16.f16", 16, 8, 2, 1, 1,
        ⟨[16], .f16⟩, ⟨[16], .f16⟩, ⟨[8], .f32⟩⟩ = ⟨[16], .f16⟩) ∧
    (WmmaInsn.retType ⟨"rocdl.wmma.f32.16x16x16.f16", 16, 8, 2, 1, 1,
        ⟨[16], .f16⟩, ⟨[16], .f16⟩, ⟨[8], .f32⟩⟩ = ⟨[8], getRetType .f16⟩) :=
  select_fixed_geometry .f16 .f16 32 16 16
    ⟨"rocdl.wmma.f32.16x16x16.f16", 16, 8, 2, 1, 1,
     ⟨[16], .f16⟩, ⟨[16], .f16⟩, ⟨[8], .f32⟩⟩ (by decide)

lemma writeRange_length {β : Type} (d0 : β) (dest src : List β) (n i0 : Nat) :
    (writeRange d0 dest src n i0).length = dest.length := by
  induction dest generalizing i0 with
  | nil => rfl
  | cons c rest ih => simp [writeRange, ih]

lemma writeRange_getD_of_le {β : Type} (d0 : β) (dest src : List β)
    (n i0 j : Nat) (d : β) (h : n ≤ i0 + j) :
    (writeRange d0 dest src n i0).getD j d = dest.getD j d := by
  induction dest generalizing i0 j with
  | nil => rfl
  | cons c rest ih =>
    cases j with
    | zero =>
      have : ¬ i0 < n := by omega
      simp [writeRange, this]
    | succ k =>
      simp only [writeRange, List.getD_cons_succ]
      exact ih (i0 + 1) k (by omega)

lemma writeRange_getD_of_lt {β : Type} (d0 : β) (dest src : List β)
    (n i0 j : Nat) (d : β) (hj : j < dest.length) (hn : i0 + j < n) :
    (writeRange d0 dest src n i0).getD j d = src.getD (i0 + j) d0 := by
  induction dest generalizing i0 j with
  | nil => simp at hj
  | cons c rest ih =>
    cases j with
    | zero =>
      have : i0 < n := by omega
      simp [writeRange, this]
    | succ k =>
      simp only [writeRange, List.getD_cons_succ]
      rw [ih (i0 + 1) k (by simpa using hj) (by omega)]
      congr 1
      omega

lemma getD_map_of_lt {α β : Type} (g : α → β) (l : List α) (i : Nat)
    (h : i < l.length) (d : β) (pd : α) :
    (l.map g).getD i d = g (l.getD i pd) := by
  induction l generalizing i with
  | nil => simp at h
  | cons a rest ih =>
    cases i with
    | zero => simp
    | succ k => simpa using ih k (by simpa using h)

/-- C5: at the Quick tuning level the split-K likelihood classifier answers
`never` for all dimension inputs, whatever heuristic `rock::isSplitKFaster`
would have applied at higher levels. -/
theorem splitK_quick_always_never
    (heur : Int → Int → Int → Int → Int → SplitKSelectionLikelihood)
    (gDim mDim nDim kDim numCUs : Int) :
    mlirIsSplitKFaster heur gDim mDim nDim kDim numCUs .Quick = .never := by
  simp [mlirIsSplitKFaster]

/-- Witness for C5: even a heuristic answering `always` everywhere is
overridden to `never` at the Quick level. -/
theorem splitK_quick_always_never_witness :
    mlirIsSplitKFaster (fun _ _ _ _ _ => .always) 1 2 3 4 5 .Quick = .never :=
  splitK_quick_always_never (fun _ _ _ _ _ => .always) 1 2 3 4 5

/-- C6: both textual-encoding calls report the true length of the canonical
string — also when it exceeds the buffer capacity — and modify no buffer
position at or beyond `bufLen`; the buffer's extent never changes. -/
theorem buffer_contract_true_length (perfConfig key buf : List Char)
    (bufLen : Nat) :
    ((mlirRockTuningParamToString perfConfig buf bufLen).1 =
        perfConfig.length ∧
      (mlirRockTuningParamToString perfConfig buf bufLen).2.length =
        buf.length ∧
      (∀ i, bufLen ≤ i →
        (mlirRockTuningParamToString perfConfig buf bufLen).2.getD i nullChar =
          buf.getD i nullChar)) ∧
    ((mlirRockTuningGetKey (some key) buf bufLen).1 = key.length ∧
      (mlirRockTuningGetKey (some key) buf bufLen).2.length = buf.length ∧
      (∀ i, bufLen ≤ i →
        (mlirRockTuningGetKey (some key) buf bufLen).2.getD i nullChar =
          buf.getD i nullChar)) := by
  refine ⟨⟨rfl, ?_, fun i hi => ?_⟩, ⟨rfl, ?_, fun i hi => ?_⟩⟩ <;>
    simp only [mlirRockTuningParamToString, mlirRockTuningGetKey, strncpyList]
  · exact writeRange_length nullChar buf perfConfig bufLen 0
  · exact writeRange_getD_of_le nullChar buf perfConfig bufLen 0 i nullChar
      (by omega)
  · exact writeRange_length nullChar buf key bufLen 0
  · exact writeRange_getD_of_le nullChar buf key bufLen 0 i nullChar (by omega)

/-- Witness for C6: a three-byte string against a two-byte buffer still
reports length 3, and position 5 is untouched. -/
theorem buffer_contract_true_length_witness :
    (mlirRockTuningParamToString ("abc".toList) ("xy".toList) 2).1 =
      "abc".toList.length ∧
    (mlirRockTuningParamToString ("abc".toList) ("xy".toList) 2).2.getD 5
      nullChar = "xy".toList.getD 5 nullChar ∧
    (mlirRockTuningGetKey (some ("abc".toList)) ("xy".toList) 2).1 =
      "abc".toList.length :=
  ⟨(buffer_contract_true_length ("abc".toList) ("abc".toList)
      ("xy".toList) 2).1.1,
   (buffer_contract_true_length ("abc".toList) ("abc".toList)
      ("xy".toList) 2).1.2.2 5 (by decide),
   (buffer_contract_true_length ("abc".toList) ("abc".toList)
      ("xy".toList) 2).2.1⟩

/-- C7: for a module holding a single function with stored prefill
attributes and a declared length not exceeding the prefill count, the info
query fills exactly the first `length` positions of both caller arrays with
the attributes' (argument index, initial value) pairs in order, touches no
position at `length` or beyond, and never changes the arrays' extents. -/
theorem prefill_info_fills_first_entries (f : LLVMFuncOp) (indices : List Nat)
    (initValues : List Int) (len : Nat)
    (hlen : len ≤ mlirGetNumPrefillArgs ⟨[f]⟩)
    (hidx : len ≤ indices.length) (hval : len ≤ initValues.length) :
    ((mlirGetPrefillArgsInfo ⟨[f]⟩ indices initValues len).1.length =
      indices.length) ∧
    ((mlirGetPrefillArgsInfo ⟨[f]⟩ indices initValues len).2.length =
      initValues.length) ∧
    (∀ i, i < len →
      (mlirGetPrefillArgsInfo ⟨[f]⟩ indices initValues len).1.getD i 0 =
        ((getStoredPrefillAttributes f).getD i ⟨0, 0⟩).argIndex ∧
      (mlirGetPrefillArgsInfo ⟨[f]⟩ indices initValues len).2.getD i 0 =
        ((getStoredPrefillAttributes f).getD i ⟨0, 0⟩).initValue) ∧
    (∀ i, len ≤ i →
      (mlirGetPrefillArgsInfo ⟨[f]⟩ indices initValues len).1.getD i 0 =
        indices.getD i 0 ∧
      (mlirGetPrefillArgsInfo ⟨[f]⟩ indices initValues len).2.getD i 0 =
        initValues.getD i 0) := by
  have hlen' : len ≤ (getStoredPrefillAttributes f).length := hlen
  refine ⟨writeRange_length _ _ _ _ _, writeRange_length _ _ _ _ _,
    fun i hi => ⟨?_, ?_⟩, fun i hi => ⟨?_, ?_⟩⟩
  · have h1 := writeRange_getD_of_lt 0 indices
      ((getStoredPrefillAttributes f).map (·.argIndex)) len 0 i 0
      (by omega) (by omega)
    rw [Nat.zero_add] at h1
    exact h1.trans (getD_map_of_lt (·.argIndex) (getStoredPrefillAttributes f)
      i (by omega) 0 ⟨0, 0⟩)
  · have h2 := writeRange_getD_of_lt 0 initValues
      ((getStoredPrefillAttributes f).map (·.initValue)) len 0 i 0
      (by omega) (by omega)
    rw [Nat.zero_add] at h2
    exact h2.trans (getD_map_of_lt (·.initValue) (getStoredPrefillAttributes f)
      i (by omega) 0 ⟨0, 0⟩)
  · exact writeRange_getD_of_le 0 indices
      ((getStoredPrefillAttributes f).map (·.argIndex)) len 0 i 0 (by omega)
  · exact writeRange_getD_of_le 0 initValues
      ((getStoredPrefillAttributes f).map (·.initValue)) len 0 i 0 (by omega)

/-- Witness for C7: a function with two stored attributes, arrays of length
three, declared length two. -/
theorem prefill_info_fills_first_entries_witness :
    ((mlirGetPrefillArgsInfo ⟨[⟨[⟨1, 7⟩, ⟨3, 9⟩]⟩]⟩ [5, 5, 5] [4, 4, 4]
        2).1.length = [5, 5, 5].length) ∧
    ((mlirGetPrefillArgsInfo ⟨[⟨[⟨1, 7⟩, ⟨3, 9⟩]⟩]⟩ [5, 5, 5] [4, 4, 4]
        2).2.length = [(4 : Int), 4, 4].length) ∧
    ((mlirGetPrefillArgsInfo ⟨[⟨[⟨1, 7⟩, ⟨3, 9⟩]⟩]⟩ [5, 5, 5] [4, 4, 4]
        2).1.getD 0 0 =
      ((getStoredPrefillAttributes ⟨[⟨1, 7⟩, ⟨3, 9⟩]⟩).getD 0 ⟨0, 0⟩).argIndex ∧
     (mlirGetPrefillArgsInfo ⟨[⟨[⟨1, 7⟩, ⟨3, 9⟩]⟩]⟩ [5, 5, 5] [4, 4, 4]
        2).2.getD 0 0 =
      ((getStoredPrefillAttributes ⟨[⟨1, 7⟩, ⟨3, 9⟩]⟩).getD 0
        ⟨0, 0⟩).initValue) ∧
    ((mlirGetPrefillArgsInfo ⟨[⟨[⟨1, 7⟩, ⟨3, 9⟩]⟩]⟩ [5, 5, 5] [4, 4, 4]
        2).1.getD 2 0 = [5, 5, 5].getD 2 0 ∧
     (mlirGetPrefillArgsInfo ⟨[⟨[⟨1, 7⟩, ⟨3, 9⟩]⟩]⟩ [5, 5, 5] [4, 4, 4]
        2).2.getD 2 0 = [(4 : Int), 4, 4].getD 2 0) :=
  ⟨(prefill_info_fills_first_entries ⟨[⟨1, 7⟩, ⟨3, 9⟩]⟩ [5, 5, 5] [4, 4, 4] 2
      (by decide) (by decide) (by decide)).1,
   (prefill_info_fills_first_entries ⟨[⟨1, 7⟩, ⟨3, 9⟩]⟩ [5, 5, 5] [4, 4, 4] 2
      (by decide) (by decide) (by decide)).2.1,
   (prefill_info_fills_first_entries ⟨[⟨1, 7⟩, ⟨3, 9⟩]⟩ [5, 5, 5] [4, 4, 4] 2
      (by decide) (by decide) (by decide)).2.2.1 0 (by decide),
   (prefill_info_fills_first_entries ⟨[⟨1, 7⟩, ⟨3, 9⟩]⟩ [5, 5, 5] [4, 4, 4] 2
      (by decide) (by decide) (by decide)).2.2.2 2 (by decide)⟩

/-- C10: a module with no LLVM function reports a prefill count of 0, and
the prefill-info query hands back both caller arrays untouched, for every
declared length. -/
theorem prefill_no_llvm_func (m : RockModule) (hm : m.llvmFuncs = [])
    (indices : List Nat) (initValues : List Int) (len : Nat) :
    mlirGetNumPrefillArgs m = 0 ∧
    mlirGetPrefillArgsInfo m indices initValues len = (indices, initValues) := by
  have hwalk : m.walkLastFunc = none := by
    simp [RockModule.walkLastFunc, hm]
  simp [mlirGetNumPrefillArgs, mlirGetPrefillArgsInfo, hwalk]

/-- Witness for C10: the empty module with concrete arrays. -/
theorem prefill_no_llvm_func_witness :
    mlirGetNumPrefillArgs ⟨[]⟩ = 0 ∧
    mlirGetPrefillArgsInfo ⟨[]⟩ [5, 6] [7, 8] 2 = ([5, 6], [7, 8]) :=
  prefill_no_llvm_func ⟨[]⟩ rfl [5, 6] [7, 8] 2

end RocMLIR
